import Mathlib

/-
Verification of the pomodoro-timer persistent store
(src/src-tauri/src/database.rs) against its natural-language
specification.

The Rust command layer is embedded shallowly: the SQLite database is a
record of row lists, each SQL statement becomes a pure state
transformer, and fallible commands return `Except String`.  SQLite
semantics relevant here are modelled exactly as documented:

* `UPDATE ... WHERE` touching no row is a success, not an error;
* `INSERT OR REPLACE` deletes the conflicting row and inserts a fresh
  one, so columns absent from the column list take their declared
  DEFAULT values;
* `INSERT ... ON CONFLICT(date) DO UPDATE` updates the conflicting row
  in place;
* foreign-key actions (`ON DELETE SET NULL`) run only when the
  connection has executed `PRAGMA foreign_keys = ON`; the program never
  does, so declared referential actions do not fire;
* each statement outside an explicit transaction commits on its own
  (autocommit), so a crash between statements exposes the prefix of
  statements already executed.

Timestamps are abstracted to a calendar-date part plus a time-of-day
part; `DATE(x)` in SQL is projection onto the date part, and
`chrono::Utc::now().format("%Y-%m-%d")` is the date part of "now".
Dates in `YYYY-MM-DD` form compare lexicographically, matching their
chronological order, so SQL string comparison on dates is `String` order.
-/

namespace Pomodoro

/-- An ISO-8601 UTC timestamp, split into its calendar-date part
(`YYYY-MM-DD`) and the remaining time-of-day part. -/
structure Timestamp where
  date : String
  time : String
deriving DecidableEq, Repr

/-- A row of the `tasks` table (struct `Task` in database.rs). -/
structure Task where
  id : String
  text : String
  completed : Bool
  created_at : Timestamp
  completed_at : Option Timestamp
  priority : Int
  estimated_pomodoros : Int
  actual_pomodoros : Int
deriving DecidableEq, Repr

/-- A row of the `pomodoro_sessions` table (struct `PomodoroSession`). -/
structure PomodoroSession where
  id : String
  task_id : Option String
  session_type : String
  duration_minutes : Nat
  started_at : Timestamp
  completed_at : Option Timestamp
  interrupted : Bool
deriving DecidableEq, Repr

/-- A row of the `daily_stats` table.  Unlike the `DailyStats` struct
returned to the front end, the table also stores a `created_at` column. -/
structure StatsRow where
  date : String
  pomodoros_completed : Nat
  total_work_time : Nat
  tasks_completed : Nat
  created_at : Timestamp
deriving DecidableEq, Repr

/-- The `DailyStats` struct returned by the stats queries (no
`created_at`; the SELECTs read only four columns). -/
structure DailyStats where
  date : String
  pomodoros_completed : Nat
  total_work_time : Nat
  tasks_completed : Nat
deriving DecidableEq, Repr

/-- The `HeatmapPoint` struct returned by `get_focus_heatmap`. -/
structure HeatmapPoint where
  date : String
  count : Nat
  level : Nat
deriving DecidableEq, Repr

/-- The database: the three data tables of schema version 2. -/
structure DB where
  tasks : List Task
  sessions : List PomodoroSession
  daily_stats : List StatsRow
deriving DecidableEq, Repr

/-- Both `INSERT OR REPLACE` and `ON CONFLICT(date) DO UPDATE` key
`daily_stats` on the primary key `date`: replace the row with the same
date if one exists, otherwise insert. -/
def upsertStats (rows : List StatsRow) (row : StatsRow) : List StatsRow :=
  if rows.any (fun r => r.date == row.date) then
    rows.map (fun r => if r.date == row.date then row else r)
  else rows ++ [row]

/-- The daily-stats bump of `complete_task` (database.rs lines 290-298):
`INSERT OR REPLACE INTO daily_stats (date, tasks_completed, created_at)
VALUES (?1, COALESCE((SELECT tasks_completed ...), 0) + 1, ?2)`.
The subselect reads the current `tasks_completed`; the REPLACE writes a
fresh row in which the unlisted columns `pomodoros_completed` and
`total_work_time` take their DEFAULT 0. -/
def bump_task_completed (rows : List StatsRow) (today : String) (now : Timestamp) :
    List StatsRow :=
  let prev := ((rows.find? (fun r => r.date == today)).map
    (fun r => r.tasks_completed)).getD 0
  upsertStats rows
    { date := today, pomodoros_completed := 0, total_work_time := 0,
      tasks_completed := prev + 1, created_at := now }

/-- The daily-stats bump of `complete_pomodoro_session` (database.rs
lines 398-407): `INSERT INTO daily_stats (date, pomodoros_completed,
total_work_time, created_at) VALUES (?1, 1, ?2, ?3) ON CONFLICT(date)
DO UPDATE SET pomodoros_completed = pomodoros_completed + 1,
total_work_time = total_work_time + ?2`, where `?2` is bound to the
literal `25` (`params![&today, 25, ...]`), not to the session's
`duration_minutes`. -/
def bump_work_session (rows : List StatsRow) (today : String) (now : Timestamp) :
    List StatsRow :=
  if rows.any (fun r => r.date == today) then
    rows.map (fun r =>
      if r.date == today then
        { r with pomodoros_completed := r.pomodoros_completed + 1,
                 total_work_time := r.total_work_time + 25 }
      else r)
  else
    rows ++ [{ date := today, pomodoros_completed := 1, total_work_time := 25,
               tasks_completed := 0, created_at := now }]

/-- The command `complete_task` (database.rs lines 269-301).  The UPDATE touches the
rows whose id matches (none is fine: SQLite reports 0 affected rows as
success, and the code never checks the count); when `completed` is true
the daily-stats bump runs for the date of "now". -/
def complete_task (db : DB) (task_id : String) (completed : Bool)
    (now : Timestamp) : Except String DB :=
  let ca : Option Timestamp := if completed then some now else none
  let db1 : DB := { db with tasks := db.tasks.map (fun t =>
    if t.id == task_id then { t with completed := completed, completed_at := ca }
    else t) }
  if completed then
    .ok { db1 with daily_stats := bump_task_completed db1.daily_stats now.date now }
  else
    .ok db1

/-- The command `update_task` (database.rs lines 303-321): in-place update of text,
priority and estimate; completion state and actual count untouched. -/
def update_task (db : DB) (task_id : String) (text : String) (priority : Int)
    (estimated_pomodoros : Int) : Except String DB :=
  .ok { db with tasks := db.tasks.map (fun t =>
    if t.id == task_id then
      { t with text := text, priority := priority,
               estimated_pomodoros := estimated_pomodoros }
    else t) }

/-- The command `delete_task` (database.rs lines 323-332): a single
`DELETE FROM tasks WHERE id = ?1`.  The `pomodoro_sessions` schema
declares `FOREIGN KEY(task_id) REFERENCES tasks(id) ON DELETE SET NULL`,
but SQLite runs referential actions only on connections that have
executed `PRAGMA foreign_keys = ON`, and no code in the repository ever
issues that pragma, so the sessions table is not touched: rows keep
their now-dangling `task_id`. -/
def delete_task (db : DB) (task_id : String) : Except String DB :=
  .ok { db with tasks := db.tasks.filter (fun t => !(t.id == task_id)) }

/-- The command `start_pomodoro_session` (database.rs lines 334-355): INSERT of a
fresh row.  The table CHECK constraint rejects kinds outside the closed
set, and the TEXT PRIMARY KEY rejects a duplicate id. -/
def start_pomodoro_session (db : DB) (session_id : String)
    (task_id : Option String) (session_type : String) (duration_minutes : Nat)
    (now : Timestamp) : Except String DB :=
  if db.sessions.any (fun s => s.id == session_id) then
    .error "Database error: UNIQUE constraint failed: pomodoro_sessions.id"
  else if session_type == "work" || session_type == "short_break"
      || session_type == "long_break" then
    .ok { db with sessions := db.sessions ++
      [{ id := session_id, task_id := task_id, session_type := session_type,
         duration_minutes := duration_minutes, started_at := now,
         completed_at := none, interrupted := false }] }
  else
    .error "Database error: CHECK constraint failed: session_type"

/-- The command `complete_pomodoro_session` (database.rs lines 357-411).  First an
UPDATE of the session row (0 affected rows is success); then a SELECT of
the row's kind and task link (`query_row` errors with
`QueryReturnedNoRows` when the id is absent); if kind is work and the
completion was neither abandoned nor interrupted, the task counter
UPDATE (skipped without a task link) and the daily-stats upsert. -/
def complete_pomodoro_session (db : DB) (session_id : String)
    (was_completed was_interrupted : Bool) (now : Timestamp) :
    Except String DB :=
  let ca : Option Timestamp := if was_completed then some now else none
  let db1 : DB := { db with sessions := db.sessions.map (fun s =>
    if s.id == session_id then
      { s with completed_at := ca, interrupted := was_interrupted }
    else s) }
  match db1.sessions.find? (fun s => s.id == session_id) with
  | none => .error "Database error: Query returned no rows"
  | some s =>
    if s.session_type == "work" && was_completed && !was_interrupted then
      let db2 : DB :=
        match s.task_id with
        | some tid =>
          { db1 with tasks := db1.tasks.map (fun t =>
            if t.id == tid then
              { t with actual_pomodoros := t.actual_pomodoros + 1 }
            else t) }
        | none => db1
      .ok { db2 with daily_stats := bump_work_session db2.daily_stats now.date now }
    else
      .ok db1

/-! `complete_pomodoro_session` runs its three write statements without
`BEGIN`/`COMMIT`, so each commits on its own (SQLite autocommit).  The
decomposition below lists those statements in program order; the state
committed after an interruption is the fold of a prefix of the list. -/

/-- Statement 1 of `complete_pomodoro_session`: the UPDATE of the
session row. -/
def session_row_stmt (session_id : String) (was_completed was_interrupted : Bool)
    (now : Timestamp) (db : DB) : DB :=
  let ca : Option Timestamp := if was_completed then some now else none
  { db with sessions := db.sessions.map (fun s =>
    if s.id == session_id then
      { s with completed_at := ca, interrupted := was_interrupted }
    else s) }

/-- Whether the completion qualifies for the counter and stats bumps:
the looked-up row has kind work and the call reported a completed,
uninterrupted session. -/
def session_qualifies (db : DB) (session_id : String)
    (was_completed was_interrupted : Bool) : Bool :=
  match db.sessions.find? (fun s => s.id == session_id) with
  | some s => s.session_type == "work" && was_completed && !was_interrupted
  | none => false

/-- Statement 2 of `complete_pomodoro_session`: the task counter UPDATE,
executed only for a qualifying completion with a task link. -/
def task_counter_stmt (session_id : String) (was_completed was_interrupted : Bool)
    (db : DB) : DB :=
  if session_qualifies db session_id was_completed was_interrupted then
    match (db.sessions.find? (fun s => s.id == session_id)).bind
        (fun s => s.task_id) with
    | some tid =>
      { db with tasks := db.tasks.map (fun t =>
        if t.id == tid then { t with actual_pomodoros := t.actual_pomodoros + 1 }
        else t) }
    | none => db
  else db

/-- Statement 3 of `complete_pomodoro_session`: the daily-stats upsert,
executed only for a qualifying completion. -/
def daily_stat_stmt (session_id : String) (was_completed was_interrupted : Bool)
    (now : Timestamp) (db : DB) : DB :=
  if session_qualifies db session_id was_completed was_interrupted then
    { db with daily_stats := bump_work_session db.daily_stats now.date now }
  else db

/-- The write statements of `complete_pomodoro_session` in program
order. -/
def complete_session_stmts (session_id : String)
    (was_completed was_interrupted : Bool) (now : Timestamp) :
    List (DB → DB) :=
  [session_row_stmt session_id was_completed was_interrupted now,
   task_counter_stmt session_id was_completed was_interrupted,
   daily_stat_stmt session_id was_completed was_interrupted now]

/-- The committed state after the first `k` autocommit statements. -/
def commitAfter (db : DB) (stmts : List (DB → DB)) (k : Nat) : DB :=
  (stmts.take k).foldl (fun d f => f d) db

/-- The query `get_daily_stats_by_date` (database.rs lines 512-549): the row for
the date when it exists, otherwise the designed zero-valued default. -/
def get_daily_stats_by_date (db : DB) (date : String) : Except String DailyStats :=
  match db.daily_stats.find? (fun r => r.date == date) with
  | some r =>
    .ok { date := r.date, pomodoros_completed := r.pomodoros_completed,
          total_work_time := r.total_work_time,
          tasks_completed := r.tasks_completed }
  | none =>
    .ok { date := date, pomodoros_completed := 0, total_work_time := 0,
          tasks_completed := 0 }

/-- SQLite compares TEXT values bytewise (BINARY collation); on the
ASCII `YYYY-MM-DD` date strings used here that is character-by-character
lexicographic comparison, the empty remainder comparing smallest. -/
def strListLe : List Char → List Char → Bool
  | [], _ => true
  | _ :: _, [] => false
  | a :: as, b :: bs => if a = b then strListLe as bs else decide (a < b)

/-- SQL `<=` on two TEXT date values. -/
def date_le (a b : String) : Bool :=
  strListLe a.data b.data

/-- The WHERE clause of `get_focus_heatmap`: work kind, not interrupted,
completion present, and start date inside the trailing window. -/
def heatmap_qualifies (start_date : String) (s : PomodoroSession) : Bool :=
  s.session_type == "work" && !s.interrupted && s.completed_at.isSome
    && date_le start_date s.started_at.date

/-- The `match count` bucketing of `get_focus_heatmap`
(database.rs lines 582-588). -/
def heatmap_level (count : Nat) : Nat :=
  if count = 0 then 0
  else if count ≤ 2 then 1
  else if count ≤ 5 then 2
  else if count ≤ 9 then 3
  else 4

/-- The group keys of the heatmap query: the distinct start dates of
the qualifying rows (`GROUP BY DATE(started_at)`), in ascending SQL
TEXT order (`ORDER BY date ASC`). -/
def heatmap_dates (db : DB) (start_date : String) : List String :=
  (((db.sessions.filter (heatmap_qualifies start_date)).map
    (fun s => s.started_at.date)).dedup).insertionSort
    (fun a b => date_le a b = true)

/-- The `COUNT(*)` of one heatmap group: the number of qualifying rows
whose start date is `d`. -/
def heatmap_count (db : DB) (start_date d : String) : Nat :=
  ((db.sessions.filter (heatmap_qualifies start_date)).filter
    (fun s => s.started_at.date == d)).length

/-- The query `get_focus_heatmap` (database.rs lines 551-603):
`SELECT DATE(started_at), COUNT(*) ... WHERE <heatmap_qualifies>
GROUP BY DATE(started_at) ORDER BY date ASC`, then the level bucketing
of each group's count. -/
def get_focus_heatmap (db : DB) (start_date : String) : List HeatmapPoint :=
  (heatmap_dates db start_date).map (fun d =>
    { date := d, count := heatmap_count db start_date d,
      level := heatmap_level (heatmap_count db start_date d) })

/-! ## Schema migration

`migrate_database` (database.rs lines 98-197) works at the DDL level:
table existence, column existence on `tasks`, and the `db_version`
rows.  The model records those, together with the data rows, which the
bodies never touch (`CREATE TABLE IF NOT EXISTS` and
`ALTER TABLE ADD COLUMN` preserve existing rows; the added columns read
as their declared defaults, which the flags represent). -/

/-- The `DB_VERSION` constant of database.rs. -/
def DB_VERSION : Int := 2

/-- Which of the version-2 columns the `tasks` table currently has. -/
structure TasksCols where
  priority : Bool
  estimated_pomodoros : Bool
  actual_pomodoros : Bool
deriving DecidableEq, Repr

/-- The on-disk database as the migrator sees it: the `db_version`
table (possibly absent) and its rows, existence of each data table,
the extra `tasks` columns, and the stored data rows. -/
structure SchemaDB where
  has_version_table : Bool
  versions : List Int
  has_tasks : Bool
  tasks_cols : TasksCols
  has_sessions : Bool
  has_daily_stats : Bool
  has_settings : Bool
  task_rows : List Task
  session_rows : List PomodoroSession
  stats_rows : List StatsRow
deriving DecidableEq, Repr

/-- The query `SELECT version FROM db_version ORDER BY version DESC LIMIT 1` with
`unwrap_or(0)`: the largest recorded version, 0 when there is none
(the query runs after the table is created, so only emptiness can make
it fail). -/
def current_version : List Int → Int
  | [] => 0
  | v :: vs => max v (current_version vs)

/-- The statement `INSERT OR REPLACE INTO db_version (version) VALUES (v)`: `version`
is the primary key and the only column, so a conflicting row is
replaced by an identical one and a missing one is inserted. -/
def record_version (vs : List Int) (v : Int) : List Int :=
  if vs.contains v then vs else vs ++ [v]

/-- One migration body of the `match version` (database.rs lines
115-186).  Body 1 creates `tasks` if absent.  Body 2 adds the three
columns — with `.ok()` swallowing the "duplicate column" error, so an
already-present column is left as is — and creates the three other
tables if absent.  Any other number matches the empty arm.  No body
reads or writes data rows. -/
def apply_migration (s : SchemaDB) (version : Int) : SchemaDB :=
  if version = 1 then
    { s with has_tasks := true }
  else if version = 2 then
    { s with tasks_cols := ⟨true, true, true⟩,
             has_sessions := true, has_daily_stats := true,
             has_settings := true }
  else s

/-- The inclusive integer range `a..=b` of the Rust `for` loop. -/
def int_range (a b : Int) : List Int :=
  (List.range (b + 1 - a).toNat).map (fun i => a + i)

/-- The function `migrate_database` (database.rs lines 98-197): ensure the version
table, read the current version, and when it is behind run the bodies
from `current+1` to `DB_VERSION` and record the new version. -/
def migrate_database (s0 : SchemaDB) : SchemaDB :=
  let s : SchemaDB := { s0 with has_version_table := true }
  let current := current_version s.versions
  if current < DB_VERSION then
    let s1 := (int_range (current + 1) DB_VERSION).foldl apply_migration s
    { s1 with versions := record_version s1.versions DB_VERSION }
  else s

/-! ## Session traces

For the counter invariant the relevant histories are sequences of
`start_pomodoro_session` → `complete_pomodoro_session` pairs on
sessions linked to one task. -/

/-- One `start` → `complete` pair on a session linked to the observed
task: the fresh session id, its kind and planned duration, the start
time, the two flags passed to `complete`, and the completion time. -/
structure SessionEvent where
  sid : String
  kind : String
  duration : Nat
  started : Timestamp
  was_completed : Bool
  was_interrupted : Bool
  finished : Timestamp
deriving DecidableEq, Repr

/-- Run a list of start→complete pairs, all linked to task `tid`,
threading errors. -/
def run_events (tid : String) : DB → List SessionEvent → Except String DB
  | db, [] => .ok db
  | db, e :: es =>
    match start_pomodoro_session db e.sid (some tid) e.kind e.duration
        e.started with
    | .error err => .error err
    | .ok db1 =>
      match complete_pomodoro_session db1 e.sid e.was_completed
          e.was_interrupted e.finished with
      | .error err => .error err
      | .ok db2 => run_events tid db2 es

/-- Whether a start→complete pair is counted: a work session completed
without interruption. -/
def counted (e : SessionEvent) : Bool :=
  e.kind == "work" && e.was_completed && !e.was_interrupted

/-! ## Basic lemmas -/

theorem strListLe_total : ∀ as bs : List Char,
    strListLe as bs = true ∨ strListLe bs as = true
  | [], _ => .inl rfl
  | _ :: _, [] => .inr rfl
  | a :: as, b :: bs => by
    by_cases hab : a = b
    · subst hab
      simpa [strListLe] using strListLe_total as bs
    · rcases lt_or_gt_of_ne hab with h | h
      · left
        simp [strListLe, hab, h]
      · right
        simp [strListLe, Ne.symm hab, h]

theorem strListLe_trans : ∀ as bs cs : List Char,
    strListLe as bs = true → strListLe bs cs = true → strListLe as cs = true
  | [], _, _, _, _ => rfl
  | _ :: _, [], _, h, _ => by simp [strListLe] at h
  | _ :: _, _ :: _, [], _, h => by simp [strListLe] at h
  | a :: as, b :: bs, c :: cs, h1, h2 => by
    by_cases hab : a = b <;> by_cases hbc : b = c
    · subst hab; subst hbc
      simp only [strListLe, if_pos rfl] at h1 h2 ⊢
      exact strListLe_trans as bs cs h1 h2
    · subst hab
      simp [strListLe, hbc] at h2
      simp [strListLe, hbc, h2]
    · subst hbc
      simp [strListLe, hab] at h1
      simp [strListLe, hab, h1]
    · simp [strListLe, hab] at h1
      simp [strListLe, hbc] at h2
      have hac : a < c := lt_trans h1 h2
      simp [strListLe, ne_of_lt hac, hac]

instance : IsTotal String (fun a b => date_le a b = true) :=
  ⟨fun a b => strListLe_total a.data b.data⟩

instance : IsTrans String (fun a b => date_le a b = true) :=
  ⟨fun a b c => strListLe_trans a.data b.data c.data⟩

/-- Lookup by key (`find?`) over the conditional-update map that every
UPDATE/upsert statement of the embedding uses: looking up key `d` after
updating the rows with key `today` finds the updated row when `d = today`
and the original row otherwise. -/
theorem find?_update {α : Type} (key : α → String) (f : α → α) (today d : String)
    (hf : ∀ t, key t = today → key (f t) = key t) :
    ∀ l : List α,
    ((l.map (fun t => if key t == today then f t else t)).find?
        (fun t => key t == d))
      = if d = today then (l.find? (fun t => key t == today)).map f
        else l.find? (fun t => key t == d)
  | [] => by
    by_cases h : d = today <;> simp [h]
  | t :: l => by
    have ih := find?_update key f today d hf l
    by_cases h1 : key t = today
    · have hc : (key t == today) = true := by simp [h1]
      have hft : key (f t) = today := (hf t h1).trans h1
      by_cases h2 : d = today
      · have hcd : (key (f t) == d) = true := by simp [hft, h2]
        simp only [List.map_cons, List.find?_cons, hc, hcd, if_true, if_pos h2]
        rfl
      · have hcd : (key (f t) == d) = false := by
          simp [hft]
          exact fun hh => h2 hh.symm
        have hcd2 : (key t == d) = false := by
          simp [h1]
          exact fun hh => h2 hh.symm
        simp only [List.map_cons, List.find?_cons, hc, hcd, hcd2, if_true, if_neg h2]
        rw [ih, if_neg h2]
    · have hc : (key t == today) = false := by simp [h1]
      have hcneg : ¬ ((key t == today) = true) := by simp [h1]
      by_cases h3 : key t = d
      · have h4 : ¬ (d = today) := fun hh => h1 (h3.trans hh)
        have hcd : (key t == d) = true := by simp [h3]
        rw [List.map_cons, if_neg hcneg]
        simp only [List.find?_cons, hcd, if_neg h4]
      · have hcd : (key t == d) = false := by simp [h3]
        rw [List.map_cons, if_neg hcneg]
        simp only [List.find?_cons, hcd]
        rw [ih]
        by_cases h2 : d = today
        · simp only [if_pos h2, List.find?_cons, hc]
        · simp only [if_neg h2, List.find?_cons, hcd]

theorem find?_not_found {α : Type} (p : α → Bool) (l : List α)
    (h : ¬ l.any p = true) : l.find? p = none := by
  rw [List.find?_eq_none]
  intro x hx hpx
  exact h (List.any_eq_true.mpr ⟨x, hx, hpx⟩)

theorem find?_upsertStats (rows : List StatsRow) (row : StatsRow) (d : String) :
    (upsertStats rows row).find? (fun r => r.date == d)
      = if d = row.date then some row else rows.find? (fun r => r.date == d) := by
  unfold upsertStats
  by_cases hany : rows.any (fun r => r.date == row.date)
  · rw [if_pos hany, find?_update (fun r => r.date) (fun _ => row) row.date d
      (fun t ht => ht.symm) rows]
    by_cases h : d = row.date
    · obtain ⟨r0, hr0, hp0⟩ := List.any_eq_true.mp hany
      cases hfind : rows.find? (fun r => r.date == row.date) with
      | none => exact absurd hp0 (List.find?_eq_none.mp hfind r0 hr0)
      | some r => simp [h, hfind]
    · simp [h]
  · rw [if_neg hany, List.find?_append]
    have hnone : rows.find? (fun r => r.date == row.date) = none :=
      find?_not_found _ _ hany
    by_cases h : d = row.date
    · subst h
      simp [hnone]
    · have : ¬ (row.date = d) := fun hh => h hh.symm
      simp [List.find?_cons, beq_iff_eq, this, h]

theorem find?_bump_task (rows : List StatsRow) (today : String) (now : Timestamp)
    (d : String) :
    (bump_task_completed rows today now).find? (fun r => r.date == d)
      = if d = today then
          some { date := today, pomodoros_completed := 0, total_work_time := 0,
                 tasks_completed :=
                   ((rows.find? (fun r => r.date == today)).map
                     (fun r => r.tasks_completed)).getD 0 + 1,
                 created_at := now }
        else rows.find? (fun r => r.date == d) := by
  unfold bump_task_completed
  rw [find?_upsertStats]

theorem find?_bump_work (rows : List StatsRow) (today : String) (now : Timestamp)
    (d : String) :
    (bump_work_session rows today now).find? (fun r => r.date == d)
      = if d = today then
          match rows.find? (fun r => r.date == today) with
          | some r => some { r with pomodoros_completed := r.pomodoros_completed + 1,
                                    total_work_time := r.total_work_time + 25 }
          | none => some { date := today, pomodoros_completed := 1,
                           total_work_time := 25, tasks_completed := 0,
                           created_at := now }
        else rows.find? (fun r => r.date == d) := by
  unfold bump_work_session
  by_cases hany : rows.any (fun r => r.date == today)
  · rw [if_pos hany, find?_update (fun r => r.date)
      (fun r => { r with pomodoros_completed := r.pomodoros_completed + 1,
                         total_work_time := r.total_work_time + 25 })
      today d (fun _ _ => rfl) rows]
    by_cases h : d = today
    · obtain ⟨r0, hr0, hp0⟩ := List.any_eq_true.mp hany
      cases hfind : rows.find? (fun r => r.date == today) with
      | none => exact absurd hp0 (List.find?_eq_none.mp hfind r0 hr0)
      | some r => simp [h, hfind]
    · simp [h]
  · rw [if_neg hany, List.find?_append]
    have hnone : rows.find? (fun r => r.date == today) = none :=
      find?_not_found _ _ hany
    by_cases h : d = today
    · subst h
      simp [hnone]
    · have : ¬ (today = d) := fun hh => h hh.symm
      simp [List.find?_cons, beq_iff_eq, this, h]

/-! ## Concrete fixtures used by the closed theorems -/

/-- Shorthand for a timestamp literal. -/
def ts (d t : String) : Timestamp := ⟨d, t⟩

/-- A fresh task, as `add_task` creates it. -/
def task0 : Task :=
  ⟨"T", "Write report", false, ts "2024-03-01" "09:00:00Z", none, 0, 1, 0⟩

/-- A running 10-minute work session linked to `task0`. -/
def sess10 : PomodoroSession :=
  ⟨"s1", some "T", "work", 10, ts "2024-03-05" "09:00:00Z", none, false⟩

/-- The completion instant of the fixtures dated 2024-03-05. -/
def now0 : Timestamp := ts "2024-03-05" "10:00:00Z"

/-- A work session started before UTC midnight and still running. -/
def sessMid : PomodoroSession :=
  ⟨"s2", none, "work", 25, ts "2024-01-01" "23:50:00Z", none, false⟩

/-- A completion instant shortly after UTC midnight, the calendar day
after `sessMid` started. -/
def nowMid : Timestamp := ts "2024-01-02" "00:10:00Z"

/-! ## Claims -/

/-- C8: for a date with no `daily_stats` row, `get_daily_stats_by_date`
returns the zero-valued stat for that date as a success, not an error;
for a date with a row, it returns the stored values. -/
theorem C8_stats_for_date_default_zeros (db : DB) (date : String) :
    (db.daily_stats.find? (fun r => r.date == date) = none →
      get_daily_stats_by_date db date
        = .ok { date := date, pomodoros_completed := 0, total_work_time := 0,
                tasks_completed := 0 })
    ∧ (∀ r, db.daily_stats.find? (fun r => r.date == date) = some r →
      get_daily_stats_by_date db date
        = .ok { date := r.date, pomodoros_completed := r.pomodoros_completed,
                total_work_time := r.total_work_time,
                tasks_completed := r.tasks_completed }) := by
  constructor
  · intro h
    unfold get_daily_stats_by_date
    rw [h]
  · intro r h
    unfold get_daily_stats_by_date
    rw [h]

/-- Witness for C8: on a fresh (empty) database the query for
2099-01-01 returns the zero stat, not an error. -/
theorem C8_stats_for_date_default_zeros_witness :
    get_daily_stats_by_date ⟨[], [], []⟩ "2099-01-01"
      = .ok { date := "2099-01-01", pomodoros_completed := 0,
              total_work_time := 0, tasks_completed := 0 } :=
  (C8_stats_for_date_default_zeros ⟨[], [], []⟩ "2099-01-01").1 rfl

/-- C5: deleting task `T` with a session referencing it succeeds and
removes only the task row, but the session afterwards still carries
`task_id = some "T"`, not `null`: the declared `ON DELETE SET NULL`
action never fires because no connection enables `PRAGMA foreign_keys`. -/
theorem C5_delete_keeps_dangling_reference :
    delete_task ⟨[task0], [sess10], []⟩ "T" = .ok ⟨[], [sess10], []⟩
    ∧ sess10.task_id = some "T"
    ∧ some "T" ≠ (none : Option String) := by
  refine ⟨rfl, rfl, ?_⟩
  intro h
  cases h

/-- C1 counterexample: completing the 10-minute work session `sess10`
adds 25 minutes — the hard-coded constant — to `total_work_time`, not
the session's own planned duration of 10. -/
theorem C1_duration_ignored_cex :
    complete_pomodoro_session ⟨[task0], [sess10], []⟩ "s1" true false now0
      = .ok ⟨[{ task0 with actual_pomodoros := 1 }],
             [{ sess10 with completed_at := some now0 }],
             [⟨"2024-03-05", 1, 25, 0, now0⟩]⟩
    ∧ sess10.duration_minutes = 10
    ∧ (25 : Nat) ≠ 10 := by
  refine ⟨rfl, rfl, by decide⟩

/-- C2 counterexample: the task-completed bump on a day that already
has 2 pomodoros and 50 work minutes recorded rewrites that row to
`(pomodoros_completed, total_work_time, tasks_completed) = (0, 0, 1)`:
the REPLACE resets the sibling counters instead of leaving them. -/
theorem C2_replace_zeroes_cex :
    complete_task ⟨[task0], [], [⟨"2024-03-05", 2, 50, 0, now0⟩]⟩ "T" true now0
      = .ok ⟨[{ task0 with completed := true, completed_at := some now0 }], [],
             [⟨"2024-03-05", 0, 0, 1, now0⟩]⟩
    ∧ (0 : Nat) ≠ 2
    ∧ (0 : Nat) ≠ 50 := by
  refine ⟨rfl, by decide, by decide⟩

/-- C3 counterexample: completing a task id that exists nowhere returns
success, not a NotFound error, and still changes the database: a
`daily_stats` row for today is created. -/
theorem C3_missing_id_no_error_cex :
    complete_task ⟨[], [], []⟩ "missing" true now0
      = .ok ⟨[], [], [⟨"2024-03-05", 0, 0, 1, now0⟩]⟩
    ∧ ([⟨"2024-03-05", 0, 0, 1, now0⟩] : List StatsRow) ≠ [] := by
  refine ⟨rfl, ?_⟩
  intro h
  cases h

/-- C10: the heatmap attributes a qualifying session to the UTC date of
its start timestamp, while the daily-stats bump is keyed by the date of
"now" at completion.  For the session started 2024-01-01 23:50 and
completed 2024-01-02 00:10, the heatmap shows count 1 on 2024-01-01
while `stats_for_date("2024-01-01")` reports 0 pomodoros. -/
theorem C10_heatmap_vs_daily_stats_date_attribution :
    complete_pomodoro_session ⟨[], [sessMid], []⟩ "s2" true false nowMid
      = .ok ⟨[], [{ sessMid with completed_at := some nowMid }],
             [⟨"2024-01-02", 1, 25, 0, nowMid⟩]⟩
    ∧ get_focus_heatmap
        ⟨[], [{ sessMid with completed_at := some nowMid }],
         [⟨"2024-01-02", 1, 25, 0, nowMid⟩]⟩ "2023-01-01"
      = [⟨"2024-01-01", 1, 1⟩]
    ∧ get_daily_stats_by_date
        ⟨[], [{ sessMid with completed_at := some nowMid }],
         [⟨"2024-01-02", 1, 25, 0, nowMid⟩]⟩ "2024-01-01"
      = .ok { date := "2024-01-01", pomodoros_completed := 0,
              total_work_time := 0, tasks_completed := 0 }
    ∧ (1 : Nat) ≠ 0 := by
  refine ⟨rfl, rfl, rfl, by decide⟩

/-- Flat characterisation of `complete_pomodoro_session` when the
session id exists: the branch condition and the task link are read off
the row found by the SELECT (which the preceding UPDATE has already
rewritten, preserving `session_type` and `task_id`). -/
theorem complete_session_eq (db : DB) (sid : String) (wc wi : Bool)
    (now : Timestamp) (s : PomodoroSession)
    (hfind : db.sessions.find? (fun x => x.id == sid) = some s) :
    complete_pomodoro_session db sid wc wi now
      = if s.session_type == "work" && wc && !wi then
          .ok { tasks :=
                  match s.task_id with
                  | some tid => db.tasks.map (fun t =>
                      if t.id == tid then
                        { t with actual_pomodoros := t.actual_pomodoros + 1 }
                      else t)
                  | none => db.tasks,
                sessions := db.sessions.map (fun x =>
                  if x.id == sid then
                    { x with completed_at := if wc then some now else none,
                             interrupted := wi }
                  else x),
                daily_stats := bump_work_session db.daily_stats now.date now }
        else
          .ok { db with sessions := db.sessions.map (fun x =>
            if x.id == sid then
              { x with completed_at := if wc then some now else none,
                       interrupted := wi }
            else x) } := by
  unfold complete_pomodoro_session
  dsimp only
  have key := find?_update (fun x : PomodoroSession => x.id)
    (fun x => { x with completed_at := if wc then some now else none,
                       interrupted := wi })
    sid sid (fun _ _ => rfl) db.sessions
  rw [if_pos rfl, hfind] at key
  rw [key]
  obtain ⟨xid, xtid, xty, xdur, xst, xca, xint⟩ := s
  cases xtid <;> rfl

/-- C1 (amended): a qualifying work-session completion bumps today's
`daily_stats` row by +1 pomodoro and by the fixed constant +25 minutes
of work time — independent of the session's planned `duration_minutes` —
creating the row as `(1, 25)` if absent, and leaves every other date's
row unchanged. -/
theorem C1_work_session_bump_fixed_25 (db : DB) (sid : String)
    (now : Timestamp) (s : PomodoroSession)
    (hfind : db.sessions.find? (fun x => x.id == sid) = some s)
    (hwork : s.session_type = "work") :
    ∃ db', complete_pomodoro_session db sid true false now = .ok db'
    ∧ (db'.daily_stats.find? (fun r => r.date == now.date)).map
        (fun r => (r.pomodoros_completed, r.total_work_time))
        = some (match db.daily_stats.find? (fun r => r.date == now.date) with
                | some r => (r.pomodoros_completed + 1, r.total_work_time + 25)
                | none => (1, 25))
    ∧ ∀ d, d ≠ now.date →
        db'.daily_stats.find? (fun r => r.date == d)
          = db.daily_stats.find? (fun r => r.date == d) := by
  rw [complete_session_eq db sid true false now s hfind]
  have hq : (s.session_type == "work" && true && !false) = true := by
    simp [hwork]
  rw [if_pos hq]
  refine ⟨_, rfl, ?_, ?_⟩
  · dsimp only
    rw [find?_bump_work, if_pos rfl]
    cases hf : db.daily_stats.find? (fun r => r.date == now.date) <;> simp [hf]
  · intro d hd
    dsimp only
    rw [find?_bump_work, if_neg hd]

/-- Witness for C1 (amended): completing the 10-minute session records
`(pomodoros_completed, total_work_time) = (1, 25)` for the day. -/
theorem C1_work_session_bump_fixed_25_witness :
    ∃ db', complete_pomodoro_session ⟨[task0], [sess10], []⟩ "s1" true false now0
      = .ok db'
    ∧ (db'.daily_stats.find? (fun r => r.date == "2024-03-05")).map
        (fun r => (r.pomodoros_completed, r.total_work_time)) = some (1, 25) := by
  obtain ⟨db', h1, h2, h3⟩ :=
    C1_work_session_bump_fixed_25 ⟨[task0], [sess10], []⟩ "s1" now0 sess10 rfl rfl
  exact ⟨db', h1, by simpa using h2⟩

/-- C2 (amended): completing a task bumps `tasks_completed` of today's
`daily_stats` row to its previous value plus one (creating the row if
absent), but — because the bump is an INSERT OR REPLACE that lists only
`date`, `tasks_completed` and `created_at` — the same row's
`pomodoros_completed` and `total_work_time` come out as the column
default 0, discarding any previous values; rows of other dates are
unchanged. -/
theorem C2_task_bump_resets_other_counters (db : DB) (tid : String)
    (now : Timestamp) :
    ∃ db', complete_task db tid true now = .ok db'
    ∧ (db'.daily_stats.find? (fun r => r.date == now.date)).map
        (fun r => r.tasks_completed)
        = some (((db.daily_stats.find? (fun r => r.date == now.date)).map
            (fun r => r.tasks_completed)).getD 0 + 1)
    ∧ (db'.daily_stats.find? (fun r => r.date == now.date)).map
        (fun r => (r.pomodoros_completed, r.total_work_time))
        = some (0, 0)
    ∧ ∀ d, d ≠ now.date →
        db'.daily_stats.find? (fun r => r.date == d)
          = db.daily_stats.find? (fun r => r.date == d) := by
  refine ⟨_, rfl, ?_, ?_, ?_⟩
  · dsimp only [complete_task]
    rw [find?_bump_task, if_pos rfl]
    rfl
  · dsimp only [complete_task]
    rw [find?_bump_task, if_pos rfl]
    rfl
  · intro d hd
    dsimp only [complete_task]
    rw [find?_bump_task, if_neg hd]

/-- C3 (amended): completing a task id that matches no row is a silent
success: the UPDATE affects zero rows, the code never checks the count
and returns Ok; moreover with `completed = true` the daily-stats bump
for today still runs, so the database is not left unchanged. -/
theorem C3_missing_task_silent_success (db : DB) (tid : String)
    (completed : Bool) (now : Timestamp)
    (h : ∀ t ∈ db.tasks, t.id ≠ tid) :
    ∃ db', complete_task db tid completed now = .ok db'
    ∧ db'.tasks = db.tasks
    ∧ (completed = false → db' = db)
    ∧ (completed = true →
        db'.daily_stats = bump_task_completed db.daily_stats now.date now) := by
  have hmap : db.tasks.map (fun t =>
      if t.id == tid then
        { t with completed := completed,
                 completed_at := if completed then some now else none }
      else t) = db.tasks := by
    have hpt : ∀ t ∈ db.tasks, (fun t =>
        if t.id == tid then
          { t with completed := completed,
                   completed_at := if completed then some now else none }
        else t) t = id t := by
      intro t ht
      have : ¬ ((t.id == tid) = true) := by simp [h t ht]
      simp only [if_neg this, id]
    rw [List.map_congr_left hpt, List.map_id]
  cases completed with
  | true =>
    refine ⟨_, rfl, hmap, ?_, fun _ => rfl⟩
    intro hfalse
    exact Bool.noConfusion hfalse
  | false =>
    refine ⟨_, rfl, hmap, ?_, ?_⟩
    · intro _
      show ({ db with tasks := db.tasks.map (fun t =>
        if t.id == tid then
          { t with completed := false,
                   completed_at := if false then some now else none }
        else t) } : DB) = db
      rw [hmap]
    · intro htrue
      exact Bool.noConfusion htrue

/-- Witness for C3 (amended): on the empty database, completing the
missing id "missing" succeeds and creates today's stats row. -/
theorem C3_missing_task_silent_success_witness :
    ∃ db', complete_task ⟨[], [], []⟩ "missing" true now0 = .ok db'
    ∧ db'.tasks = ([] : List Task)
    ∧ (True → db'.daily_stats
        = bump_task_completed [] now0.date now0) := by
  obtain ⟨db', h1, h2, h3, h4⟩ :=
    C3_missing_task_silent_success ⟨[], [], []⟩ "missing" true now0
      (by intro t ht; cases ht)
  exact ⟨db', h1, h2, fun _ => h4 rfl⟩

/-- Witness for C2 (amended): on a day holding `(2, 50, 0)` the bump
yields `tasks_completed = 1` and resets the other two counters to 0. -/
theorem C2_task_bump_resets_other_counters_witness :
    ∃ db', complete_task ⟨[task0], [], [⟨"2024-03-05", 2, 50, 0, now0⟩]⟩
        "T" true now0 = .ok db'
    ∧ (db'.daily_stats.find? (fun r => r.date == "2024-03-05")).map
        (fun r => r.tasks_completed) = some 1
    ∧ (db'.daily_stats.find? (fun r => r.date == "2024-03-05")).map
        (fun r => (r.pomodoros_completed, r.total_work_time)) = some (0, 0) := by
  obtain ⟨db', h1, h2, h3, h4⟩ := C2_task_bump_resets_other_counters
    ⟨[task0], [], [⟨"2024-03-05", 2, 50, 0, now0⟩]⟩ "T" now0
  exact ⟨db', h1, h2.trans rfl, h3⟩

/-- C4 counterexample: for the session `sess10`, the state committed
after the first autocommit statement of `complete_pomodoro_session`
carries the session-row update but neither the task-counter increment
nor the daily-stat bump, while the state after all three statements
carries all of them — a committed strict subset of the three effects. -/
theorem C4_partial_commit_cex :
    commitAfter ⟨[task0], [sess10], []⟩
        (complete_session_stmts "s1" true false now0) 1
      = ⟨[task0], [{ sess10 with completed_at := some now0 }], []⟩
    ∧ commitAfter ⟨[task0], [sess10], []⟩
        (complete_session_stmts "s1" true false now0) 3
      = ⟨[{ task0 with actual_pomodoros := 1 }],
         [{ sess10 with completed_at := some now0 }],
         [⟨"2024-03-05", 1, 25, 0, now0⟩]⟩
    ∧ ([] : List StatsRow) ≠ [⟨"2024-03-05", 1, 25, 0, now0⟩]
    ∧ task0.actual_pomodoros
        ≠ ({ task0 with actual_pomodoros := 1 } : Task).actual_pomodoros := by
  refine ⟨rfl, rfl, ?_, by decide⟩
  intro h
  cases h

/-- C4 (amended): `complete_pomodoro_session` issues its writes as
separate autocommit statements, not one transaction: the state
committed after the first statement alone has the session row updated
while tasks and daily stats are untouched, and only running all three
statements reproduces the operation's final state. -/
theorem C4_statements_commit_individually (db : DB) (sid : String)
    (wc wi : Bool) (now : Timestamp) :
    (commitAfter db (complete_session_stmts sid wc wi now) 1).tasks = db.tasks
    ∧ (commitAfter db (complete_session_stmts sid wc wi now) 1).daily_stats
        = db.daily_stats
    ∧ commitAfter db (complete_session_stmts sid wc wi now) 1
        = session_row_stmt sid wc wi now db
    ∧ (∀ s, db.sessions.find? (fun x => x.id == sid) = some s →
        complete_pomodoro_session db sid wc wi now
          = .ok (commitAfter db (complete_session_stmts sid wc wi now) 3)) := by
  refine ⟨rfl, rfl, rfl, ?_⟩
  intro s hfind
  have key := find?_update (fun x : PomodoroSession => x.id)
    (fun x => { x with completed_at := if wc then some now else none,
                       interrupted := wi })
    sid sid (fun _ _ => rfl) db.sessions
  rw [if_pos rfl, hfind] at key
  have key' : (db.sessions.map (fun x =>
      if x.id == sid then
        { x with completed_at := if wc then some now else none,
                 interrupted := wi }
      else x)).find? (fun x => x.id == sid)
      = some { s with completed_at := if wc then some now else none,
                      interrupted := wi } := key.trans rfl
  rw [complete_session_eq db sid wc wi now s hfind]
  show _ = .ok (daily_stat_stmt sid wc wi now
    (task_counter_stmt sid wc wi (session_row_stmt sid wc wi now db)))
  have hq1 : session_qualifies (session_row_stmt sid wc wi now db) sid wc wi
      = (s.session_type == "work" && wc && !wi) := by
    unfold session_qualifies session_row_stmt
    dsimp only
    rw [key']
  by_cases hq : (s.session_type == "work" && wc && !wi) = true
  · rw [if_pos hq]
    have htc : task_counter_stmt sid wc wi (session_row_stmt sid wc wi now db)
        = match s.task_id with
          | some tid =>
            { session_row_stmt sid wc wi now db with
              tasks := db.tasks.map (fun t =>
                if t.id == tid then
                  { t with actual_pomodoros := t.actual_pomodoros + 1 }
                else t) }
          | none => session_row_stmt sid wc wi now db := by
      unfold task_counter_stmt
      rw [hq1, if_pos hq]
      unfold session_row_stmt
      dsimp only
      rw [key']
      rfl
    rw [htc]
    cases htid : s.task_id with
    | none =>
      have h2 : daily_stat_stmt sid wc wi now (session_row_stmt sid wc wi now db)
          = { session_row_stmt sid wc wi now db with
              daily_stats := bump_work_session db.daily_stats now.date now } := by
        unfold daily_stat_stmt
        rw [hq1, if_pos hq]
        rfl
      rw [h2]
      rfl
    | some tid =>
      have hq2 : session_qualifies
          { session_row_stmt sid wc wi now db with
            tasks := db.tasks.map (fun t =>
              if t.id == tid then
                { t with actual_pomodoros := t.actual_pomodoros + 1 }
              else t) } sid wc wi
          = (s.session_type == "work" && wc && !wi) := by
        unfold session_qualifies session_row_stmt
        dsimp only
        rw [key']
      have h2 : daily_stat_stmt sid wc wi now
          { session_row_stmt sid wc wi now db with
            tasks := db.tasks.map (fun t =>
              if t.id == tid then
                { t with actual_pomodoros := t.actual_pomodoros + 1 }
              else t) }
          = { session_row_stmt sid wc wi now db with
              tasks := db.tasks.map (fun t =>
                if t.id == tid then
                  { t with actual_pomodoros := t.actual_pomodoros + 1 }
                else t),
              daily_stats := bump_work_session db.daily_stats now.date now } := by
        unfold daily_stat_stmt
        rw [hq2, if_pos hq]
        rfl
      rw [h2]
      rfl
  · rw [if_neg hq]
    have htc : task_counter_stmt sid wc wi (session_row_stmt sid wc wi now db)
        = session_row_stmt sid wc wi now db := by
      unfold task_counter_stmt
      rw [hq1, if_neg hq]
    have h2 : daily_stat_stmt sid wc wi now (session_row_stmt sid wc wi now db)
        = session_row_stmt sid wc wi now db := by
      unfold daily_stat_stmt
      rw [hq1, if_neg hq]
    rw [htc, h2]
    rfl

/-- Witness for C4 (amended): the decomposition agrees with the full
operation on the `sess10` fixture. -/
theorem C4_statements_commit_individually_witness :
    complete_pomodoro_session ⟨[task0], [sess10], []⟩ "s1" true false now0
      = .ok (commitAfter ⟨[task0], [sess10], []⟩
          (complete_session_stmts "s1" true false now0) 3) :=
  (C4_statements_commit_individually ⟨[task0], [sess10], []⟩ "s1" true false
    now0).2.2.2 sess10 rfl

/-! ## Migration lemmas -/

theorem apply_migration_preserves (s : SchemaDB) (v : Int) :
    (apply_migration s v).versions = s.versions
    ∧ (apply_migration s v).has_version_table = s.has_version_table := by
  unfold apply_migration
  split_ifs <;> exact ⟨rfl, rfl⟩

theorem foldl_apply_migration_preserves : ∀ (l : List Int) (s : SchemaDB),
    (l.foldl apply_migration s).versions = s.versions
    ∧ (l.foldl apply_migration s).has_version_table = s.has_version_table
  | [], _ => ⟨rfl, rfl⟩
  | v :: l, s => by
    have h1 := apply_migration_preserves s v
    have h2 := foldl_apply_migration_preserves l (apply_migration s v)
    exact ⟨h2.1.trans h1.1, h2.2.trans h1.2⟩

theorem le_current_version {v : Int} : ∀ {vs : List Int}, v ∈ vs →
    v ≤ current_version vs := by
  intro vs h
  induction vs with
  | nil => cases h
  | cons w ws ih =>
    show v ≤ max w (current_version ws)
    rcases List.mem_cons.mp h with h | h
    · subst h
      exact le_max_left _ _
    · exact le_trans (ih h) (le_max_right _ _)

theorem record_version_has (vs : List Int) (v : Int) :
    v ∈ record_version vs v := by
  unfold record_version
  by_cases h : vs.contains v
  · rw [if_pos h]
    exact List.elem_iff.mp h
  · rw [if_neg h]
    exact List.mem_append.mpr (Or.inr (List.mem_singleton.mpr rfl))

/-- A database whose version table exists and records at least
`DB_VERSION` is left untouched by the migrator. -/
theorem migrate_database_noop (s : SchemaDB) (ht : s.has_version_table = true)
    (hv : DB_VERSION ≤ current_version s.versions) :
    migrate_database s = s := by
  obtain ⟨hvt, vers, t1, tc, t2, t3, t4, r1, r2, r3⟩ := s
  dsimp only at ht hv ⊢
  subst ht
  unfold migrate_database
  dsimp only
  rw [if_neg (not_lt.mpr hv)]

/-- C7: the migrator is a no-op on an already-current database, and
re-running it after any completed run returns the identical state. -/
theorem C7_migrate_idempotent (s : SchemaDB) :
    (s.has_version_table = true →
      DB_VERSION ≤ current_version s.versions → migrate_database s = s)
    ∧ migrate_database (migrate_database s) = migrate_database s := by
  constructor
  · exact fun ht hv => migrate_database_noop s ht hv
  · by_cases h : current_version s.versions < DB_VERSION
    · have hm : migrate_database s
          = { (int_range (current_version s.versions + 1) DB_VERSION).foldl
                apply_migration { s with has_version_table := true } with
              versions :=
                record_version s.versions DB_VERSION } := by
        unfold migrate_database
        dsimp only
        rw [if_pos h, (foldl_apply_migration_preserves _ _).1]
      rw [hm]
      apply migrate_database_noop
      · exact (foldl_apply_migration_preserves _ _).2
      · exact le_current_version (record_version_has _ _)
    · have hv : DB_VERSION ≤ current_version s.versions := not_lt.mp h
      have hm : migrate_database s = { s with has_version_table := true } := by
        unfold migrate_database
        dsimp only
        rw [if_neg (not_lt.mpr hv)]
      rw [hm]
      exact migrate_database_noop _ rfl hv

/-- C9: every heatmap point stands for a distinct date (no duplicate
dates), points are in ascending date order, a date appears exactly when
at least one qualifying session in the window started on it, each
point's count is the number of qualifying sessions of that date, and
the level is the fixed bucketing 0→0, 1–2→1, 3–5→2, 6–9→3, ≥10→4
(dates with zero qualifying sessions are omitted, so counts are ≥ 1). -/
theorem C9_heatmap_points (db : DB) (start_date : String) :
    ((get_focus_heatmap db start_date).map (fun p => p.date)).Nodup
    ∧ List.Pairwise (fun p q => date_le p.date q.date = true)
        (get_focus_heatmap db start_date)
    ∧ (∀ d : String, (∃ p ∈ get_focus_heatmap db start_date, p.date = d)
        ↔ ∃ s ∈ db.sessions, heatmap_qualifies start_date s = true
            ∧ s.started_at.date = d)
    ∧ (∀ p ∈ get_focus_heatmap db start_date,
        1 ≤ p.count
        ∧ p.count = (db.sessions.filter (fun s =>
            s.started_at.date == p.date && heatmap_qualifies start_date s)).length
        ∧ (p.count = 0 → p.level = 0)
        ∧ (1 ≤ p.count → p.count ≤ 2 → p.level = 1)
        ∧ (3 ≤ p.count → p.count ≤ 5 → p.level = 2)
        ∧ (6 ≤ p.count → p.count ≤ 9 → p.level = 3)
        ∧ (10 ≤ p.count → p.level = 4)) := by
  have hco : ((fun p : HeatmapPoint => p.date) ∘ (fun d =>
      ({ date := d, count := heatmap_count db start_date d,
         level := heatmap_level (heatmap_count db start_date d) } :
        HeatmapPoint))) = (id : String → String) := funext fun d => rfl
  have hmapdate : (get_focus_heatmap db start_date).map (fun p => p.date)
      = heatmap_dates db start_date := by
    unfold get_focus_heatmap
    rw [List.map_map, hco, List.map_id]
  have hdd : (heatmap_dates db start_date).Nodup := by
    unfold heatmap_dates
    exact ((List.perm_insertionSort _ _).nodup_iff).mpr (List.nodup_dedup _)
  have hmem : ∀ d, d ∈ heatmap_dates db start_date
      ↔ ∃ s ∈ db.sessions, heatmap_qualifies start_date s = true
          ∧ s.started_at.date = d := by
    intro d
    unfold heatmap_dates
    rw [List.mem_insertionSort, List.mem_dedup, List.mem_map]
    constructor
    · rintro ⟨s, hs, rfl⟩
      obtain ⟨hs1, hs2⟩ := List.mem_filter.mp hs
      exact ⟨s, hs1, hs2, rfl⟩
    · rintro ⟨s, hs, hq, rfl⟩
      exact ⟨s, List.mem_filter.mpr ⟨hs, hq⟩, rfl⟩
  refine ⟨?_, ?_, ?_, ?_⟩
  · rw [hmapdate]
    exact hdd
  · unfold get_focus_heatmap
    exact List.Pairwise.map _ (fun a b h => h)
      (List.sorted_insertionSort _ _)
  · intro d
    rw [← hmem]
    constructor
    · rintro ⟨p, hp, rfl⟩
      unfold get_focus_heatmap at hp
      obtain ⟨x, hx, rfl⟩ := List.mem_map.mp hp
      exact hx
    · intro hd
      exact ⟨_, List.mem_map_of_mem _ hd, rfl⟩
  · intro p hp
    unfold get_focus_heatmap at hp
    obtain ⟨d, hd, rfl⟩ := List.mem_map.mp hp
    dsimp only
    refine ⟨?_, ?_, ?_, ?_, ?_, ?_, ?_⟩
    · obtain ⟨s, hs, hq, hsd⟩ := (hmem d).mp hd
      have hmem2 : s ∈ (db.sessions.filter
          (heatmap_qualifies start_date)).filter
          (fun s => s.started_at.date == d) :=
        List.mem_filter.mpr ⟨List.mem_filter.mpr ⟨hs, hq⟩, by simp [hsd]⟩
      exact List.length_pos.mpr (List.ne_nil_of_mem hmem2)
    · unfold heatmap_count
      rw [List.filter_filter]
    · intro h0
      rw [h0]
      rfl
    · intro h1 h2
      simp only [heatmap_level]
      split_ifs <;> omega
    · intro h1 h2
      simp only [heatmap_level]
      split_ifs <;> omega
    · intro h1 h2
      simp only [heatmap_level]
      split_ifs <;> omega
    · intro h1
      simp only [heatmap_level]
      split_ifs <;> omega

/-- Witness for C9: the completed `sess10` produces a heatmap point
dated on its start date. -/
theorem C9_heatmap_points_witness :
    ∃ p ∈ get_focus_heatmap
        ⟨[], [{ sess10 with completed_at := some now0 }], []⟩ "2023-01-01",
      p.date = "2024-03-05" :=
  ((C9_heatmap_points
      ⟨[], [{ sess10 with completed_at := some now0 }], []⟩
      "2023-01-01").2.2.1 "2024-03-05").mpr
    ⟨{ sess10 with completed_at := some now0 }, by decide, rfl, rfl⟩

/-- Running a list of start→complete pairs linked to task `tid` adds
exactly the number of counted pairs (work, completed, uninterrupted) to
the task's `actual_pomodoros`, and changes nothing else in the row. -/
theorem run_events_actual (tid : String) : ∀ (es : List SessionEvent)
    (db : DB) (t : Task),
    db.tasks.find? (fun x => x.id == tid) = some t →
    (∀ e ∈ es, e.kind = "work" ∨ e.kind = "short_break"
      ∨ e.kind = "long_break") →
    (es.map (fun e => e.sid)).Nodup →
    (∀ e ∈ es, ∀ s ∈ db.sessions, s.id ≠ e.sid) →
    ∃ db', run_events tid db es = .ok db'
    ∧ db'.tasks.find? (fun x => x.id == tid)
        = some { t with actual_pomodoros :=
            t.actual_pomodoros + ((es.filter counted).length : Int) }
  | [], db, t, hfind, _, _, _ => by
    refine ⟨db, rfl, ?_⟩
    rw [hfind]
    have hz : t.actual_pomodoros
        + ((([] : List SessionEvent).filter counted).length : Int)
        = t.actual_pomodoros := by simp
    rw [hz]
  | e :: es, db, t, hfind, hkind, hnodup, hfresh => by
    have hany : ¬ (db.sessions.any (fun s => s.id == e.sid) = true) := by
      intro hh
      obtain ⟨s, hs, hp⟩ := List.any_eq_true.mp hh
      exact hfresh e (List.mem_cons_self _ _) s hs (by simpa using hp)
    have hkindb : (e.kind == "work" || e.kind == "short_break"
        || e.kind == "long_break") = true := by
      rcases hkind e (List.mem_cons_self _ _) with h | h | h <;> simp [h]
    have hstart : start_pomodoro_session db e.sid (some tid) e.kind
        e.duration e.started
        = .ok { db with sessions := db.sessions ++
            [⟨e.sid, some tid, e.kind, e.duration, e.started, none, false⟩] } := by
      unfold start_pomodoro_session
      rw [if_neg hany, if_pos hkindb]
    have hfind1 : (db.sessions ++
        [(⟨e.sid, some tid, e.kind, e.duration, e.started, none, false⟩ :
          PomodoroSession)]).find? (fun x => x.id == e.sid)
        = some ⟨e.sid, some tid, e.kind, e.duration, e.started, none, false⟩ := by
      rw [List.find?_append, find?_not_found _ _ hany]
      simp
    have hcomp := complete_session_eq
      { db with sessions := db.sessions ++
        [⟨e.sid, some tid, e.kind, e.duration, e.started, none, false⟩] }
      e.sid e.was_completed e.was_interrupted e.finished
      ⟨e.sid, some tid, e.kind, e.duration, e.started, none, false⟩
      hfind1
    have hkind' : ∀ e' ∈ es, e'.kind = "work" ∨ e'.kind = "short_break"
        ∨ e'.kind = "long_break" :=
      fun e' he' => hkind e' (List.mem_cons_of_mem _ he')
    have hnodup' : (es.map (fun e => e.sid)).Nodup :=
      (List.nodup_cons.mp hnodup).2
    have hsidnotin : e.sid ∉ es.map (fun e => e.sid) :=
      (List.nodup_cons.mp hnodup).1
    have hfresh' : ∀ e' ∈ es,
        ∀ s ∈ ((db.sessions ++
          [(⟨e.sid, some tid, e.kind, e.duration, e.started, none, false⟩ :
            PomodoroSession)]).map (fun x =>
          if x.id == e.sid then
            { x with
              completed_at := (if e.was_completed then some e.finished else none),
              interrupted := e.was_interrupted }
          else x)), s.id ≠ e'.sid := by
      intro e' he' s hs
      obtain ⟨s0, hs0, rfl⟩ := List.mem_map.mp hs
      have hid : (if s0.id == e.sid then
          ({ s0 with
             completed_at := (if e.was_completed then some e.finished else none),
             interrupted := e.was_interrupted } : PomodoroSession)
          else s0).id = s0.id := by
        by_cases h : (s0.id == e.sid) = true <;> simp [h]
      rw [hid]
      rcases List.mem_append.mp hs0 with h | h
      · exact hfresh e' (List.mem_cons_of_mem _ he') s0 h
      · rw [List.mem_singleton.mp h]
        intro hcontra
        have hcontra2 : e.sid = e'.sid := hcontra
        refine hsidnotin ?_
        rw [hcontra2]
        exact List.mem_map_of_mem _ he'
    simp only [run_events]
    rw [hstart]
    dsimp only
    rw [hcomp]
    dsimp only
    by_cases hc : (e.kind == "work" && e.was_completed && !e.was_interrupted)
        = true
    · rw [if_pos hc]
      have hfind2 : (db.tasks.map (fun x =>
          if x.id == tid then
            { x with actual_pomodoros := x.actual_pomodoros + 1 }
          else x)).find? (fun x => x.id == tid)
          = some { t with actual_pomodoros := t.actual_pomodoros + 1 } := by
        have hk := find?_update (fun x : Task => x.id)
          (fun x => { x with actual_pomodoros := x.actual_pomodoros + 1 })
          tid tid (fun _ _ => rfl) db.tasks
        rw [if_pos rfl, hfind] at hk
        exact hk.trans rfl
      obtain ⟨db', hrun, hres⟩ := run_events_actual tid es
        ({ tasks := db.tasks.map (fun x =>
            if x.id == tid then
              { x with actual_pomodoros := x.actual_pomodoros + 1 }
            else x),
           sessions := (db.sessions ++
            [(⟨e.sid, some tid, e.kind, e.duration, e.started, none, false⟩ :
              PomodoroSession)]).map (fun x =>
            if x.id == e.sid then
              { x with
                completed_at :=
                  (if e.was_completed then some e.finished else none),
                interrupted := e.was_interrupted }
            else x),
           daily_stats := bump_work_session db.daily_stats e.finished.date
             e.finished } : DB)
        { t with actual_pomodoros := t.actual_pomodoros + 1 }
        hfind2 hkind' hnodup' hfresh'
      refine ⟨db', hrun, ?_⟩
      have hc' : counted e = true := hc
      have hlen : ((e :: es).filter counted).length
          = (es.filter counted).length + 1 := by
        rw [List.filter_cons_of_pos hc', List.length_cons]
      have harith : t.actual_pomodoros + 1 + ((es.filter counted).length : Int)
          = t.actual_pomodoros + (((e :: es).filter counted).length : Int) := by
        rw [hlen]
        push_cast
        ring
      have hrecord : ({ t with actual_pomodoros :=
            t.actual_pomodoros + 1 + ((es.filter counted).length : Int) } : Task)
          = { t with actual_pomodoros :=
            t.actual_pomodoros + (((e :: es).filter counted).length : Int) } := by
        rw [harith]
      exact hres.trans (congrArg some hrecord)
    · rw [if_neg hc]
      obtain ⟨db', hrun, hres⟩ := run_events_actual tid es
        ({ tasks := db.tasks,
           sessions := (db.sessions ++
            [(⟨e.sid, some tid, e.kind, e.duration, e.started, none, false⟩ :
              PomodoroSession)]).map (fun x =>
            if x.id == e.sid then
              { x with
                completed_at :=
                  (if e.was_completed then some e.finished else none),
                interrupted := e.was_interrupted }
            else x),
           daily_stats := db.daily_stats } : DB)
        t hfind hkind' hnodup' hfresh'
      refine ⟨db', hrun, ?_⟩
      have hc' : ¬ counted e = true := hc
      have hlen : (e :: es).filter counted = es.filter counted :=
        List.filter_cons_of_neg hc'
      exact hres.trans (by rw [hlen])

/-- C6: after any sequence of start→complete pairs linked to task T
(work or break kinds, completed or not, interrupted or not, on fresh
distinct session ids), T's `actual_pomodoros`, starting from 0, equals
exactly the number of pairs with kind=work, was_completed=true and
was_interrupted=false; and neither `complete_task` nor `update_task`
ever changes any task's `actual_pomodoros`. -/
theorem C6_actual_pomodoros_counts_qualifying (db : DB) (tid : String)
    (t : Task) (es : List SessionEvent)
    (hfind : db.tasks.find? (fun x => x.id == tid) = some t)
    (hzero : t.actual_pomodoros = 0)
    (hkind : ∀ e ∈ es, e.kind = "work" ∨ e.kind = "short_break"
      ∨ e.kind = "long_break")
    (hnodup : (es.map (fun e => e.sid)).Nodup)
    (hfresh : ∀ e ∈ es, ∀ s ∈ db.sessions, s.id ≠ e.sid) :
    (∃ db', run_events tid db es = .ok db'
      ∧ (db'.tasks.find? (fun x => x.id == tid)).map
          (fun x => x.actual_pomodoros)
          = some ((es.filter counted).length : Int))
    ∧ (∀ (db0 : DB) (tid2 : String) (c : Bool) (now : Timestamp),
        ∃ db1, complete_task db0 tid2 c now = .ok db1
          ∧ db1.tasks.map (fun x => x.actual_pomodoros)
              = db0.tasks.map (fun x => x.actual_pomodoros))
    ∧ (∀ (db0 : DB) (tid2 txt : String) (pr est : Int),
        ∃ db1, update_task db0 tid2 txt pr est = .ok db1
          ∧ db1.tasks.map (fun x => x.actual_pomodoros)
              = db0.tasks.map (fun x => x.actual_pomodoros)) := by
  refine ⟨?_, ?_, ?_⟩
  · obtain ⟨db', hrun, hres⟩ := run_events_actual tid es db t hfind hkind
      hnodup hfresh
    refine ⟨db', hrun, ?_⟩
    rw [hres]
    simp [hzero]
  · intro db0 tid2 c now
    cases c with
    | true =>
      refine ⟨_, rfl, ?_⟩
      dsimp only
      rw [List.map_map]
      apply List.map_congr_left
      intro x _
      by_cases h : x.id = tid2 <;> simp [h]
    | false =>
      refine ⟨_, rfl, ?_⟩
      dsimp only
      rw [List.map_map]
      apply List.map_congr_left
      intro x _
      by_cases h : x.id = tid2 <;> simp [h]
  · intro db0 tid2 txt pr est
    refine ⟨_, rfl, ?_⟩
    dsimp only
    rw [List.map_map]
    apply List.map_congr_left
    intro x _
    by_cases h : x.id = tid2 <;> simp [h]

/-- Witness for C6: one counted work pair and one interrupted work pair
leave the counter at exactly 1. -/
theorem C6_actual_pomodoros_counts_qualifying_witness :
    ∃ db', run_events "T" ⟨[task0], [], []⟩
        [⟨"s1", "work", 25, ts "2024-03-05" "09:00:00Z", true, false, now0⟩,
         ⟨"s9", "work", 25, ts "2024-03-05" "11:00:00Z", true, true, now0⟩]
      = .ok db'
    ∧ (db'.tasks.find? (fun x => x.id == "T")).map
        (fun x => x.actual_pomodoros) = some 1 := by
  obtain ⟨db', hrun, hres⟩ := (C6_actual_pomodoros_counts_qualifying
    ⟨[task0], [], []⟩ "T" task0
    [⟨"s1", "work", 25, ts "2024-03-05" "09:00:00Z", true, false, now0⟩,
     ⟨"s9", "work", 25, ts "2024-03-05" "11:00:00Z", true, true, now0⟩]
    rfl rfl (by decide) (by decide) (by intro e he s hs; cases hs)).1
  exact ⟨db', hrun, hres.trans rfl⟩

/-- Witness for C7: a version-2 database with some rows is returned
unchanged by the migrator. -/
theorem C7_migrate_idempotent_witness :
    migrate_database
        ⟨true, [2], true, ⟨true, true, true⟩, true, true, true,
         [task0], [sess10], [⟨"2024-03-05", 2, 50, 0, now0⟩]⟩
      = ⟨true, [2], true, ⟨true, true, true⟩, true, true, true,
         [task0], [sess10], [⟨"2024-03-05", 2, 50, 0, now0⟩]⟩ :=
  (C7_migrate_idempotent _).1 rfl (by decide)

end Pomodoro
